import Mathlib

/-
Verification development for the Bayesian optimization control loop
(robo/solver/bayesian_optimization.py).  The loop, its three incumbent
recommendation policies, the timing bookkeeping and the checkpoint writes
are embedded shallowly: external collaborators (task, surrogate model,
acquisition function, maximizer, recommendation collaborators) are oracles
packaged in an environment record, wall-clock readings are successive
values of an abstract timestamp stream, and the numpy global uniform
sampler is an abstract stream of points consumed one draw at a time.
-/

namespace RoBO

/-- A point of the search domain (one row of the numpy arrays). -/
abbrev Point := List Int

/-- An objective value (one entry of Y). -/
abbrev Value := Int

/-- First index of the minimum of a list, as np.argmin computes it
(ties resolved to the earliest index). -/
def minList : List Int → Int
  | [] => 0
  | [a] => a
  | a :: b :: r => min a (minList (b :: r))

def argminList : List Int → Nat
  | [] => 0
  | [_] => 0
  | a :: b :: r => if a ≤ minList (b :: r) then 0 else argminList (b :: r) + 1

theorem minList_cons_cons (a b : Int) (r : List Int) :
    minList (a :: b :: r) = min a (minList (b :: r)) := rfl

theorem argminList_lt_length : (l : List Int) → l ≠ [] → argminList l < l.length
  | [], h => absurd rfl h
  | [_], _ => Nat.zero_lt_one
  | a :: b :: r, _ => by
      have ih := argminList_lt_length (b :: r) (by simp)
      unfold argminList
      by_cases hle : a ≤ minList (b :: r)
      · simp [hle]
      · simp only [hle, if_false, List.length_cons] at ih ⊢
        omega

/-- The entry of a list at its argmin index is the minimum. -/
theorem getD_argminList : (l : List Int) → l ≠ [] → l.getD (argminList l) 0 = minList l
  | [], h => absurd rfl h
  | [a], _ => rfl
  | a :: b :: r, _ => by
      have ih := getD_argminList (b :: r) (by simp)
      unfold argminList
      by_cases hle : a ≤ minList (b :: r)
      · rw [if_pos hle]
        simp [minList_cons_cons, min_eq_left hle]
      · rw [if_neg hle]
        have hlt : minList (b :: r) ≤ a := le_of_not_le hle
        rw [List.getD_cons_succ, ih, minList_cons_cons, min_eq_right hlt]

/-- The minimum bounds every entry of the list. -/
theorem minList_le_getD : (l : List Int) → ∀ j, j < l.length → minList l ≤ l.getD j 0
  | [], j, h => by simp at h
  | [a], 0, _ => le_refl a
  | [a], j + 1, h => by simp at h
  | a :: b :: r, 0, _ => by simp [minList_cons_cons]
  | a :: b :: r, j + 1, h => by
      have ih := minList_le_getD (b :: r) j (by simpa using h)
      calc minList (a :: b :: r) ≤ minList (b :: r) := by
            simp [minList_cons_cons]
        _ ≤ (b :: r).getD j 0 := ih

/-- The argmin index is the first index attaining the minimum: strictly
earlier positions carry strictly larger values. -/
theorem argminList_first : (l : List Int) → ∀ j, j < argminList l →
    minList l < l.getD j 0
  | [], j, h => by simp [argminList] at h
  | [a], j, h => by simp [argminList] at h
  | a :: b :: r, j, h => by
      unfold argminList at h
      by_cases hle : a ≤ minList (b :: r)
      · simp [hle] at h
      · simp only [hle, if_false] at h
        have hlt : minList (b :: r) < a := lt_of_not_le hle
        have hmin : minList (a :: b :: r) = minList (b :: r) := by
          simp [minList_cons_cons, min_eq_right (le_of_lt hlt)]
        match j with
        | 0 => simpa [hmin] using hlt
        | j + 1 =>
            have ih := argminList_first (b :: r) j (by omega)
            simpa [hmin, List.getD_cons_succ] using ih

/-- Error outcomes of the embedded code.  attributeError stands for a
Python AttributeError (reading shape of None at setup, or reading the
never-assigned incumbent value at return); evaluationFailed for a failure
raised by the task evaluation; valueError for np.argmin over an empty
array in the generic recommendation branch. -/
inductive Err
  | attributeError
  | evaluationFailed
  | valueError
  deriving DecidableEq, Repr

/-- One checkpoint written through save_iteration. -/
structure SaveRecord where
  iteration : Nat
  hyperparameters : Option Int
  acquisitionValue : Value
  deriving DecidableEq, Repr

/-- Which recommendation strategy is configured.  The source dispatches on
the identity of the configured callable: None selects the best-observed
policy, the optimize_posterior_mean_and_std function selects the posterior
policy, any other callable selects the generic local-search policy. -/
inductive StrategyTag
  | best
  | posterior
  | generic
  deriving DecidableEq, Repr

/-- Constructor arguments of BayesianOptimization that the claims touch. -/
structure Config where
  nDims : Nat
  trainIntervall : Nat
  numSave : Nat
  nRestarts : Nat
  saveDir : Bool
  strategy : StrategyTag
  deriving DecidableEq, Repr

/-- The external collaborators, the timestamp stream and the random draw
stream, all fixed for a run.  sigma is the state type of the surrogate
model.  rand i stands for draw number i of np.random.uniform over the task
bounds; times n is the value returned by call number n of time.time(). -/
structure Env (σ : Type) where
  model0 : σ
  times : Nat → Int
  rand : Nat → Point
  evaluate : Point → Option Value
  train : σ → List Point → List Value → Bool → σ
  maximize : σ → Point
  acq : σ → List Point → Value
  hypers : σ → Int
  posteriorOpt : σ → List Point → Bool → Point × Value
  genericRec : σ → Point → Point × Value

/-- The mutable attributes of the solver object, plus ghost traces of the
recommendation collaborator invocations (posteriorCalls records each call
to the posterior optimizer with its start point list and gradient flag;
genericCalls records the start point of each call to a generic strategy).
clock is the index of the next unconsumed timestamp, randIdx the index of
the next unconsumed random draw. -/
structure RunState (σ : Type) where
  X : Option (List Point)
  Y : Option (List Value)
  timeFuncEval : List Int
  timeOptOverhead : List Int
  incumbent : Option Point
  incumbentValue : Option Value
  model : σ
  modelUntrained : Bool
  clock : Nat
  randIdx : Nat
  saves : List SaveRecord
  posteriorCalls : List (List Point × Bool)
  genericCalls : List Point
  deriving Repr

variable {σ : Type}

/-- One pass of the seeding loop body (source lines 63 to 88) at seed index
i.  Clock reads, in order: line 64 start_time (index clock), line 66 end of
the draw timing (clock + 1), line 68 start_time (clock + 2), line 70 end of
the evaluation timing (clock + 3).  The draw consumes one random point.  A
failing task evaluation propagates, carrying the attributes as updated so
far (the draw timing is already written, the history is not).  The
checkpoint guard is the one of line 87: the constant 0 modulo num_save. -/
def initSeedStep (cfg : Config) (env : Env σ) (s : RunState σ) (i : Nat) :
    Except (Err × RunState σ) (RunState σ) :=
  let c := s.clock
  let x := env.rand s.randIdx
  let dOpt := env.times (c + 1) - env.times c
  let sMid : RunState σ :=
    { s with clock := c + 3, randIdx := s.randIdx + 1,
             timeOptOverhead := s.timeOptOverhead.set i dOpt }
  match env.evaluate x with
  | none => Except.error (Err.evaluationFailed, sMid)
  | some y =>
      let dEval := env.times (c + 3) - env.times (c + 2)
      let X0 := sMid.X.getD []
      let Y0 := sMid.Y.getD []
      let X1 := if i = 0 then X0.set 0 x else X0 ++ [x]
      let Y1 := if i = 0 then Y0.set 0 y else Y0 ++ [y]
      let best := argminList Y1
      Except.ok
        { sMid with
            clock := c + 4,
            timeFuncEval := sMid.timeFuncEval.set i dEval,
            X := some X1,
            Y := some Y1,
            incumbent := some (X1.getD best []),
            incumbentValue := some (Y1.getD best 0),
            saves := sMid.saves ++
              (if cfg.saveDir && decide (0 % cfg.numSave = 0) then
                [⟨i, none, 0⟩] else []) }

/-- The assignments at the head of the seeding routine (source lines 58 to
61): both timing arrays become zero arrays of length nInit, X becomes a
single zero row, Y a single zero entry. -/
def initAssign (cfg : Config) (nInit : Nat) (s : RunState σ) : RunState σ :=
  { s with timeFuncEval := List.replicate nInit 0,
           timeOptOverhead := List.replicate nInit 0,
           X := some [List.replicate cfg.nDims 0],
           Y := some [(0 : Int)] }

/-- The seeding loop from seed index i for k passes. -/
def initSeedLoop (cfg : Config) (env : Env σ) :
    Nat → Nat → RunState σ → Except (Err × RunState σ) (RunState σ)
  | _, 0, s => Except.ok s
  | i, k + 1, s =>
      match initSeedStep cfg env s i with
      | Except.error e => Except.error e
      | Except.ok s1 => initSeedLoop cfg env (i + 1) k s1

/-- The head assignments followed by the first k passes of the seeding
loop.  Exposing k separately lets the state at the end of each individual
seed iteration be named. -/
def initializeSteps (cfg : Config) (env : Env σ) (nInit k : Nat) (s : RunState σ) :
    Except (Err × RunState σ) (RunState σ) :=
  initSeedLoop cfg env 0 k (initAssign cfg nInit s)

/-- The whole seeding routine (source lines 54 to 88). -/
def initializeRun (cfg : Config) (env : Env σ) (nInit : Nat) (s : RunState σ) :
    Except (Err × RunState σ) (RunState σ) :=
  initializeSteps cfg env nInit nInit s

/-- k successive draws from the uniform sampler starting at stream index
idx: the list comprehension of source lines 133 and 139. -/
def randPoints (env : Env σ) (idx k : Nat) : List Point :=
  (List.range k).map fun i => env.rand (idx + i)

/-- The incumbent recomputation (source lines 124 to 147), dispatched on
the identity of the configured strategy.  Returns the new incumbent pair.
It reads no timestamps (the surrounding reads of lines 123, 148 and 150
happen in mainIter); the posterior and generic policies consume nRestarts
random draws each.  The generic policy with zero restarts reaches
np.argmin of an empty array, which raises. -/
def recommendStep (cfg : Config) (env : Env σ) (s : RunState σ) :
    Except (Err × RunState σ) (Point × Value × RunState σ) :=
  let X := s.X.getD []
  let Y := s.Y.getD []
  match cfg.strategy with
  | StrategyTag.best =>
      let best := argminList Y
      Except.ok (X.getD best [], Y.getD best 0, s)
  | StrategyTag.posterior =>
      let starts := randPoints env s.randIdx cfg.nRestarts ++ [X.getD (argminList Y) []]
      let r := env.posteriorOpt s.model starts true
      Except.ok (r.1, r.2,
        { s with randIdx := s.randIdx + cfg.nRestarts,
                 posteriorCalls := s.posteriorCalls ++ [(starts, true)] })
  | StrategyTag.generic =>
      let starts := randPoints env s.randIdx cfg.nRestarts
      let results := starts.map (env.genericRec s.model)
      let s1 := { s with randIdx := s.randIdx + cfg.nRestarts,
                         genericCalls := s.genericCalls ++ starts }
      match cfg.nRestarts with
      | 0 => Except.error (Err.valueError, s1)
      | _ + 1 =>
          let fvals := results.map Prod.snd
          let best := argminList fvals
          Except.ok ((results.map Prod.fst).getD best [], fvals.getD best 0, s1)

/-- choose_next (source lines 177 to 204) as invoked from run.  With both
histories present it trains the model (reads at clock and clock + 1),
updates the acquisition function, maximizes it (reads at clock + 2 and
clock + 3) and returns a single row candidate batch.  With either history
absent it falls back to the seeding routine and returns the whole seeded X
array as the batch. -/
def chooseNext (cfg : Config) (env : Env σ) (doOptimize : Bool) (s : RunState σ) :
    Except (Err × RunState σ) (List Point × RunState σ) :=
  match s.X, s.Y with
  | some X, some Y =>
      let m := env.train s.model X Y doOptimize
      Except.ok ([env.maximize m],
        { s with model := m, modelUntrained := false, clock := s.clock + 4 })
  | _, _ =>
      match initializeRun cfg env 3 s with
      | Except.error e => Except.error e
      | Except.ok s1 => Except.ok (s1.X.getD [], s1)

/-- Evaluation of a batch of rows by the task (line 157 evaluates the
whole new_x array at once): the batch fails as soon as any row fails. -/
def evalBatch (env : Env σ) : List Point → Option (List Value)
  | [] => some []
  | p :: ps =>
      match env.evaluate p, evalBatch env ps with
      | some v, some vs => some (v :: vs)
      | _, _ => none

/-- The maximizer output of one main loop iteration: the acquisition
maximum after training the model on the current history with the training
cadence decision of lines 117 to 120. -/
def candidatePoint (cfg : Config) (env : Env σ) (it : Nat) (s : RunState σ)
    (xs : List Point) (ys : List Value) : Point :=
  env.maximize (env.train s.model xs ys (decide (it % cfg.trainIntervall = 0)))

/-- One main loop iteration (source lines 112 to 171) at iteration index
it.  Clock reads in order: line 115 start_time (index clock); four reads
inside choose_next (clock + 1 to clock + 4); line 123 start_time_inc
(clock + 5); the line 148 log read (clock + 6); the line 150 overhead read
(clock + 7): the appended overhead entry spans from the line 115 read to
the line 150 read and therefore contains the recommendation step; line 156
(clock + 8) and line 158 (clock + 9) time the task evaluation.  A failing
evaluation propagates after the overhead append and the incumbent update
but before the history append. -/
def mainIter (cfg : Config) (env : Env σ) (it : Nat) (s : RunState σ) :
    Except (Err × RunState σ) (RunState σ) :=
  let c0 := s.clock
  let doOptimize := decide (it % cfg.trainIntervall = 0)
  match chooseNext cfg env doOptimize { s with clock := c0 + 1 } with
  | Except.error e => Except.error e
  | Except.ok (newX, s1) =>
      match recommendStep cfg env { s1 with clock := s1.clock + 1 } with
      | Except.error e => Except.error e
      | Except.ok (inc, incV, s2) =>
          let overhead := env.times (s2.clock + 1) - env.times c0
          let s3 : RunState σ :=
            { s2 with clock := s2.clock + 2,
                      incumbent := some inc,
                      incumbentValue := some incV,
                      timeOptOverhead := s2.timeOptOverhead ++ [overhead] }
          let cE := s3.clock
          match evalBatch env newX with
          | none => Except.error (Err.evaluationFailed, { s3 with clock := cE + 1 })
          | some newY =>
              Except.ok
                { s3 with
                    clock := cE + 2,
                    timeFuncEval := s3.timeFuncEval ++
                      [env.times (cE + 1) - env.times cE],
                    X := some (s3.X.getD [] ++ newX),
                    Y := some (s3.Y.getD [] ++ newY),
                    saves := s3.saves ++
                      (if cfg.saveDir && decide (it % cfg.numSave = 0) then
                        [⟨it, some (env.hypers s3.model), env.acq s3.model newX⟩]
                      else []) }

/-- The attribute values set by the constructor (source lines 41 to 52):
histories and incumbent are None, the model is untrained, no timestamps or
draws consumed yet.  The two timing attributes are also None in the
constructor; they are modelled as empty lists, which no reachable code
path can observe before they are assigned. -/
def startState (env : Env σ) : RunState σ :=
  { X := none, Y := none, timeFuncEval := [], timeOptOverhead := [],
    incumbent := none, incumbentValue := none, model := env.model0,
    modelUntrained := true, clock := 0, randIdx := 0, saves := [],
    posteriorCalls := [], genericCalls := [] }

/-- The state right after the line 101 time_start read: the constructor
state with one timestamp consumed. -/
def runStart (env : Env σ) : RunState σ :=
  { startState env with clock := 1 }

/-- Lines 101 to 109 of run: the time_start read consumes timestamp 0,
then either the seeding routine (both history arguments absent) or
adoption of the supplied arguments with zero timing arrays sized from X.
With X absent and Y supplied, X and Y are adopted first (lines 106 and
107) and the sizing of line 108 then reads the shape of None, which
raises. -/
def runSetup (cfg : Config) (env : Env σ) (X0 : Option (List Point))
    (Y0 : Option (List Value)) : Except (Err × RunState σ) (RunState σ) :=
  let s := runStart env
  match X0, Y0 with
  | none, none => initializeRun cfg env 3 s
  | _, _ =>
      let s1 := { s with X := X0, Y := Y0 }
      match X0 with
      | some xs =>
          Except.ok { s1 with timeFuncEval := List.replicate xs.length 0,
                              timeOptOverhead := List.replicate xs.length 0 }
      | none => Except.error (Err.attributeError, s1)

/-- The for loop of line 112 starting at iteration index it for k
iterations, propagating the first failure. -/
def mainLoop (cfg : Config) (env : Env σ) :
    Nat → Nat → RunState σ → Except (Err × RunState σ) (RunState σ)
  | _, 0, s => Except.ok s
  | it, k + 1, s =>
      match mainIter cfg env it s with
      | Except.error e => Except.error e
      | Except.ok s1 => mainLoop cfg env (it + 1) k s1

/-- The run method (source lines 90 to 175).  The loop ranges over the
iteration indices n_init_points to num_iterations - 1 where n_init_points
is the hardcoded 3 of line 111, regardless of how the histories were
obtained.  Line 173 reads the incumbent value attribute, which raises if
no seeding and no main loop iteration ever assigned it; line 175 returns
the incumbent pair. -/
def run (cfg : Config) (env : Env σ) (numIterations : Nat)
    (X0 : Option (List Point)) (Y0 : Option (List Value)) :
    Except (Err × RunState σ) (Option Point × Value × RunState σ) :=
  match runSetup cfg env X0 Y0 with
  | Except.error e => Except.error e
  | Except.ok s =>
      match mainLoop cfg env 3 (numIterations - 3) s with
      | Except.error e => Except.error e
      | Except.ok s1 =>
          match s1.incumbentValue with
          | none => Except.error (Err.attributeError, s1)
          | some v => Except.ok (s1.incumbent, v, s1)

/-- A concrete total objective used by the concrete environments: the
first coordinate of the point. -/
def gD : Point → Value := fun p => p.headD 0

/-- A concrete deterministic environment over model state Nat: training
remembers the history length, the maximizer proposes the point whose
coordinate is that length, timestamps advance by one per read, draw i is
the point with coordinate 100 + i. -/
def envD : Env Nat where
  model0 := 0
  times := fun n => (n : Int)
  rand := fun i => [(100 : Int) + i]
  evaluate := fun p => some (gD p)
  train := fun _ xs _ _ => xs.length
  maximize := fun m => [(m : Int)]
  acq := fun _ _ => 0
  hypers := fun m => (m : Int)
  posteriorOpt := fun _ _ _ => ([7], -7)
  genericRec := fun _ p => (p, p.headD 0)

/-- Default style configuration: policy A (no strategy configured),
training every iteration, saving cadence 1, two restarts, no save
directory. -/
def cfgD : Config :=
  { nDims := 1, trainIntervall := 1, numSave := 1, nRestarts := 2,
    saveDir := false, strategy := StrategyTag.best }

/-- Objective values for the C1 counterexample run: the three seed points
score 5, 4 and 3; the two main loop candidates score 10 and -10, so the
smallest of all five observations arrives only in the final iteration. -/
def gC1 : Point → Value := fun p =>
  if p = [-1] then 5
  else if p = [-2] then 4
  else if p = [-3] then 3
  else if p = [3] then 10
  else if p = [4] then -10
  else 0

/-- Environment for the C1 counterexample: seed draws are [-1], [-2],
[-3]; the maximizer behaves as in envD, proposing [3] then [4]. -/
def envC1 : Env Nat :=
  { envD with rand := fun i => [-(1 + (i : Int))],
              evaluate := fun p => some (gC1 p) }

/-- Incumbent, incumbent value and observation list returned by the C1
counterexample run. -/
def C1result : Option (Option Point × Value × Option (List Value)) :=
  match run cfgD envC1 5 none none with
  | Except.ok (inc, v, s) => some (inc, v, s.Y)
  | Except.error _ => none

/-- Claim C1 is false on the code: in an unseeded policy A run with
num_iterations 5, all five observed values are [5, 4, 3, 10, -10], whose
minimum -10 is observed in the final iteration, yet the run returns
incumbent value 3 (the minimum of the first four observations), because
the incumbent is recomputed at lines 124 to 128 before the final
observation is appended at line 167. -/
theorem C1_counterexample :
    C1result = some (some [-3], 3, some [5, 4, 3, 10, -10]) ∧
    minList [5, 4, 3, 10, -10] = -10 ∧ (3 : Int) ≠ -10 := by decide

/-- Lengths of X, Y, time_func_eval and time_optimization_overhead at the
end of the first individual seed iteration of an unseeded run. -/
def C2seedIterState : Option (Nat × Nat × Nat × Nat) :=
  match initializeSteps cfgD envD 3 1 (startState envD) with
  | Except.ok s =>
      some ((s.X.getD []).length, (s.Y.getD []).length,
        s.timeFuncEval.length, s.timeOptOverhead.length)
  | Except.error _ => none

/-- Claim C2 is false at the end of an individual seed iteration: after
the first of the three seed evaluations, X and Y have length 1 while both
timing series already have length 3, because lines 58 and 59 pre-size the
timing arrays to n_init_points before the seeding loop starts. -/
theorem C2_counterexample :
    C2seedIterState = some (1, 1, 3, 3) ∧ (1 : Nat) ≠ 3 := by decide

/-- The optimization overhead series of a seeded one-iteration run under
the identity timestamp stream. -/
def C3overheads : Option (List Int) :=
  match run cfgD envD 4 (some [[0]]) (some [5]) with
  | Except.ok (_, _, s) => some s.timeOptOverhead
  | Except.error _ => none

/-- Claim C3 is false on the code: with timestamps 0, 1, 2, ... the single
main loop iteration reads the clock at indices 1 (line 115 start_time),
2 to 5 (inside choose_next), 6 (line 123 start_time_inc, where the
recommendation step begins), 7 (the line 148 log) and 8 (line 150), and
appends times 8 - times 1 = 7 as the overhead entry.  A value covering
only the candidate selection work, measured before the recommendation
step, would be times 6 - times 1 = 5.  The appended entry therefore
includes the incumbent recomputation interval. -/
theorem C3_counterexample :
    C3overheads = some [0, 7] ∧ envD.times 6 - envD.times 1 = 5 ∧
    (7 : Int) ≠ 5 := by decide

/-- Final history length of a run seeded with a single observation and
num_iterations 4. -/
def C4historyLength : Option Nat :=
  match run cfgD envD 4 (some [[0]]) (some [5]) with
  | Except.ok (_, _, s) => some (s.X.getD []).length
  | Except.error _ => none

/-- Claim C4 is false for seeded runs: seeding with a history of length 1
and num_iterations 4 performs 4 - 3 = 1 main loop iteration (line 112
hardcodes n_init_points = 3 whatever the seed length), so the final
history has length 2, not num_iterations = 4. -/
theorem C4_counterexample :
    C4historyLength = some 2 ∧ (2 : Nat) ≠ 4 := by decide

/-- Error and state observed when run is called with only Y supplied. -/
def C9setupResult : Option ((Err × Option (List Point)) × Option (List Value) × List Int) :=
  match run cfgD envD 5 none (some [1]) with
  | Except.error (e, s) => some ((e, s.X), s.Y, s.timeFuncEval)
  | Except.ok _ => none

/-- Claim C9 is false in the Y-only case: supplying Y but not X adopts
Y (line 107) and leaves X as None, but then line 108 reads the shape of
None to size the timing series and raises an attribute error before any
iteration, contradicting the claim that no error is raised at setup and
that the timing series are sized from X. -/
theorem C9_counterexample :
    C9setupResult = some ((Err.attributeError, none), some [1], []) := by decide

/-- Characterization of one successful main loop iteration on a state
whose histories are present, for a total task evaluation and a positive
restart count: the iteration succeeds, appends the maximizer output and
its observation to the histories, appends one entry to each timing series
(the overhead entry spanning the reads at clock and clock + 7, the
evaluation entry spanning clock + 8 and clock + 9), consumes ten
timestamps, trains the model, records a checkpoint exactly under the
line 169 guard, and leaves the incumbent assigned.  These facts hold for
every recommendation strategy. -/
theorem mainIter_ok (cfg : Config) (env : Env σ) (f : Point → Value)
    (hf : env.evaluate = fun p => some (f p)) (hr : 0 < cfg.nRestarts)
    (it : Nat) (s : RunState σ) (xs : List Point) (ys : List Value)
    (hX : s.X = some xs) (hY : s.Y = some ys) :
    ∃ s', mainIter cfg env it s = Except.ok s' ∧
      s'.X = some (xs ++ [candidatePoint cfg env it s xs ys]) ∧
      s'.Y = some (ys ++ [f (candidatePoint cfg env it s xs ys)]) ∧
      s'.timeFuncEval = s.timeFuncEval ++
        [env.times (s.clock + 9) - env.times (s.clock + 8)] ∧
      s'.timeOptOverhead = s.timeOptOverhead ++
        [env.times (s.clock + 7) - env.times s.clock] ∧
      s'.clock = s.clock + 10 ∧
      s'.model = env.train s.model xs ys (decide (it % cfg.trainIntervall = 0)) ∧
      s'.modelUntrained = false ∧
      s'.incumbentValue.isSome = true ∧
      s'.saves = s.saves ++
        (if cfg.saveDir && decide (it % cfg.numSave = 0) then
          [⟨it,
            some (env.hypers (env.train s.model xs ys
              (decide (it % cfg.trainIntervall = 0)))),
            env.acq (env.train s.model xs ys
              (decide (it % cfg.trainIntervall = 0)))
              [candidatePoint cfg env it s xs ys]⟩]
        else []) := by
  obtain ⟨sX, sY, tfe, too, inc, incv, m, mu, ck, ri, sv, pc, gc⟩ := s
  obtain ⟨m0, tms, rnd, ev, tr, mx, ac, hy, po, gr⟩ := env
  dsimp only at hX hY hf ⊢
  subst hX; subst hY; subst hf
  obtain ⟨nd, ti, ns, nr, sd, st⟩ := cfg
  dsimp only at hr ⊢
  cases st with
  | best => exact ⟨_, rfl, rfl, rfl, rfl, rfl, rfl, rfl, rfl, rfl, rfl⟩
  | posterior => exact ⟨_, rfl, rfl, rfl, rfl, rfl, rfl, rfl, rfl, rfl, rfl⟩
  | generic =>
      obtain ⟨k, rfl⟩ : ∃ k, nr = k + 1 := ⟨nr - 1, by omega⟩
      exact ⟨_, rfl, rfl, rfl, rfl, rfl, rfl, rfl, rfl, rfl, rfl⟩

/-- The checkpoint list contributed by one seed iteration under the
line 87 guard. -/
def seedSaveIf (cfg : Config) (i : Nat) : List SaveRecord :=
  if cfg.saveDir && decide (0 % cfg.numSave = 0) then [⟨i, none, 0⟩] else []

/-- Characterization of the whole seeding routine for a total task
evaluation: it succeeds, the history holds the three drawn points and
their observations, the timing series hold the three measured spans each,
twelve timestamps and three draws are consumed, the incumbent is
assigned, the model is untouched, no recommendation collaborator is
called, and one checkpoint is recorded per seed iteration exactly under
the line 87 guard. -/
theorem initializeRun_ok (cfg : Config) (env : Env σ) (f : Point → Value)
    (hf : env.evaluate = fun p => some (f p)) (s : RunState σ) :
    ∃ s', initializeRun cfg env 3 s = Except.ok s' ∧
      s'.X = some [env.rand s.randIdx, env.rand (s.randIdx + 1),
        env.rand (s.randIdx + 2)] ∧
      s'.Y = some [f (env.rand s.randIdx), f (env.rand (s.randIdx + 1)),
        f (env.rand (s.randIdx + 2))] ∧
      s'.timeFuncEval = [env.times (s.clock + 3) - env.times (s.clock + 2),
        env.times (s.clock + 7) - env.times (s.clock + 6),
        env.times (s.clock + 11) - env.times (s.clock + 10)] ∧
      s'.timeOptOverhead = [env.times (s.clock + 1) - env.times s.clock,
        env.times (s.clock + 5) - env.times (s.clock + 4),
        env.times (s.clock + 9) - env.times (s.clock + 8)] ∧
      s'.clock = s.clock + 12 ∧
      s'.randIdx = s.randIdx + 3 ∧
      s'.incumbentValue.isSome = true ∧
      s'.model = s.model ∧
      s'.posteriorCalls = s.posteriorCalls ∧
      s'.genericCalls = s.genericCalls ∧
      s'.saves = ((s.saves ++ seedSaveIf cfg 0) ++ seedSaveIf cfg 1) ++
        seedSaveIf cfg 2 ∧
      s'.modelUntrained = s.modelUntrained := by
  obtain ⟨sX, sY, tfe, too, inc, incv, m, mu, ck, ri, sv, pc, gc⟩ := s
  obtain ⟨m0, tms, rnd, ev, tr, mx, ac, hy, po, gr⟩ := env
  dsimp only at hf ⊢
  subst hf
  exact ⟨_, rfl, rfl, rfl, rfl, rfl, rfl, rfl, rfl, rfl, rfl, rfl, rfl, rfl⟩

/-- A successful initial segment of the main loop of length k from a
state with both histories present grows every history and timing series
by exactly k entries and assigns the incumbent as soon as one iteration
has run. -/
theorem mainLoop_ok (cfg : Config) (env : Env σ) (f : Point → Value)
    (hf : env.evaluate = fun p => some (f p)) (hr : 0 < cfg.nRestarts) :
    ∀ (k it : Nat) (s : RunState σ) (xs : List Point) (ys : List Value),
      s.X = some xs → s.Y = some ys →
      ∃ s' xs' ys', mainLoop cfg env it k s = Except.ok s' ∧
        s'.X = some xs' ∧ s'.Y = some ys' ∧
        xs'.length = xs.length + k ∧ ys'.length = ys.length + k ∧
        s'.timeFuncEval.length = s.timeFuncEval.length + k ∧
        s'.timeOptOverhead.length = s.timeOptOverhead.length + k ∧
        (k = 0 → s' = s) ∧
        (0 < k → s'.incumbentValue.isSome = true)
  | 0, it, s, xs, ys, hX, hY =>
      ⟨s, xs, ys, rfl, hX, hY, rfl, rfl, rfl, rfl, fun _ => rfl,
        fun h => absurd h (by omega)⟩
  | k + 1, it, s, xs, ys, hX, hY => by
      obtain ⟨s1, h1, hX1, hY1, htfe, htoo, hck, hm, hmu, hinc, hsv⟩ :=
        mainIter_ok cfg env f hf hr it s xs ys hX hY
      obtain ⟨s', xs', ys', hfold, hX', hY', hlx, hly, hltf, hlto, hz, hi⟩ :=
        mainLoop_ok cfg env f hf hr k (it + 1) s1 _ _ hX1 hY1
      refine ⟨s', xs', ys', ?_, hX', hY', ?_, ?_, ?_, ?_, ?_, ?_⟩
      · show (match mainIter cfg env it s with
          | Except.error e => Except.error e
          | Except.ok s1 => mainLoop cfg env (it + 1) k s1) = Except.ok s'
        rw [h1]
        exact hfold
      · simp only [List.length_append, List.length_cons, List.length_nil] at hlx
        omega
      · simp only [List.length_append, List.length_cons, List.length_nil] at hly
        omega
      · rw [hltf, htfe]
        simp only [List.length_append, List.length_cons, List.length_nil]
        omega
      · rw [hlto, htoo]
        simp only [List.length_append, List.length_cons, List.length_nil]
        omega
      · exact fun h => absurd h (Nat.succ_ne_zero k)
      · intro _
        rcases Nat.eq_zero_or_pos k with h0 | hpos
        · rw [hz h0]; exact hinc
        · exact hi hpos

/-- Unfolding one successful iteration of the main loop. -/
theorem mainLoop_succ (cfg : Config) (env : Env σ) (it k : Nat)
    (s s1 : RunState σ) (h : mainIter cfg env it s = Except.ok s1) :
    mainLoop cfg env it (k + 1) s = mainLoop cfg env (it + 1) k s1 := by
  show (match mainIter cfg env it s with
        | Except.error e => Except.error e
        | Except.ok t => mainLoop cfg env (it + 1) k t) =
      mainLoop cfg env (it + 1) k s1
  rw [h]

/-- The value returned by run, assembled from a successful setup, a
successful main loop and an assigned incumbent value. -/
theorem run_eq (cfg : Config) (env : Env σ) (n : Nat)
    (X0 : Option (List Point)) (Y0 : Option (List Value)) (s : RunState σ)
    (hsetup : runSetup cfg env X0 Y0 = Except.ok s) (s' : RunState σ)
    (hloop : mainLoop cfg env 3 (n - 3) s = Except.ok s') (v : Value)
    (hv : s'.incumbentValue = some v) :
    run cfg env n X0 Y0 = Except.ok (s'.incumbent, v, s') := by
  unfold run
  simp only [hsetup, hloop, hv]

/-- Characterization of one main loop iteration under policy A (no
strategy configured): besides succeeding and appending the maximizer
output with its observation, it sets the incumbent to the history entry
at the argmin of the observations as they stand before the append, and
the incumbent value to that minimum entry. -/
theorem mainIter_best (cfg : Config) (env : Env σ) (f : Point → Value)
    (hf : env.evaluate = fun p => some (f p))
    (hstrat : cfg.strategy = StrategyTag.best) (it : Nat) (s : RunState σ)
    (xs : List Point) (ys : List Value) (hX : s.X = some xs)
    (hY : s.Y = some ys) :
    ∃ s', mainIter cfg env it s = Except.ok s' ∧
      s'.X = some (xs ++ [candidatePoint cfg env it s xs ys]) ∧
      s'.Y = some (ys ++ [f (candidatePoint cfg env it s xs ys)]) ∧
      s'.incumbent = some (xs.getD (argminList ys) []) ∧
      s'.incumbentValue = some (ys.getD (argminList ys) 0) := by
  obtain ⟨sX, sY, tfe, too, inc, incv, m, mu, ck, ri, sv, pc, gc⟩ := s
  obtain ⟨m0, tms, rnd, ev, tr, mx, ac, hy, po, gr⟩ := env
  dsimp only at hX hY hf ⊢
  subst hX; subst hY; subst hf
  obtain ⟨nd, ti, ns, nr, sd, st⟩ := cfg
  dsimp only at hstrat ⊢
  subst hstrat
  exact ⟨_, rfl, rfl, rfl, rfl, rfl⟩

/-- Claim C1, amended: in an unseeded policy A run with num_iterations 5,
the returned incumbent value is the minimum of the FIRST FOUR observed
values (all observations except the one made in the final iteration), and
the returned incumbent is the history entry at the first index achieving
that minimum (argminList returns the first minimizing index by theorems
getD_argminList, minList_le_getD and argminList_first).  The final
observation is excluded because lines 124 to 128 recompute the incumbent
before line 167 appends the final observation. -/
theorem C1_amended (cfg : Config) (env : Env σ) (f : Point → Value)
    (hf : env.evaluate = fun p => some (f p))
    (hstrat : cfg.strategy = StrategyTag.best) :
    ∃ inc v s xs ys, run cfg env 5 none none = Except.ok (some inc, v, s) ∧
      s.X = some xs ∧ s.Y = some ys ∧ xs.length = 5 ∧ ys.length = 5 ∧
      v = minList (ys.take 4) ∧
      inc = (xs.take 4).getD (argminList (ys.take 4)) [] := by
  obtain ⟨s1, h1, hX1, hY1, _, _, _, _, _, _, _, _, _, _⟩ :=
    initializeRun_ok cfg env f hf (runStart env)
  obtain ⟨s2, h2, hX2, hY2, _, _⟩ :=
    mainIter_best cfg env f hf hstrat 3 s1 _ _ hX1 hY1
  obtain ⟨s3, h3, hX3, hY3, hi3, hv3⟩ :=
    mainIter_best cfg env f hf hstrat 4 s2 _ _ hX2 hY2
  have hloop : mainLoop cfg env 3 (5 - 3) s1 = Except.ok s3 := by
    have e1 : mainLoop cfg env 3 2 s1 = mainLoop cfg env 4 1 s2 :=
      mainLoop_succ cfg env 3 1 s1 s2 h2
    have e2 : mainLoop cfg env 4 1 s2 = mainLoop cfg env 5 0 s3 :=
      mainLoop_succ cfg env 4 0 s2 s3 h3
    rw [show (5 : Nat) - 3 = 2 from rfl, e1, e2]
    rfl
  have hrun := run_eq cfg env 5 none none s1 h1 s3 hloop _ hv3
  rw [hi3] at hrun
  have htakeV : ∀ (a b c d z : Value),
      (([a, b, c] ++ [d]) ++ [z]).take 4 = [a, b, c] ++ [d] :=
    fun _ _ _ _ _ => rfl
  have htakeP : ∀ (a b c d z : Point),
      (([a, b, c] ++ [d]) ++ [z]).take 4 = [a, b, c] ++ [d] :=
    fun _ _ _ _ _ => rfl
  have hlenV : ∀ (a b c d z : Value), (([a, b, c] ++ [d]) ++ [z]).length = 5 :=
    fun _ _ _ _ _ => rfl
  have hlenP : ∀ (a b c d z : Point), (([a, b, c] ++ [d]) ++ [z]).length = 5 :=
    fun _ _ _ _ _ => rfl
  refine ⟨_, _, s3, _, _, hrun, hX3, hY3, ?_, ?_, ?_, ?_⟩
  · rw [hlenP]
  · rw [hlenV]
  · rw [htakeV]
    refine getD_argminList _ ?_
    simp
  · rw [htakeP, htakeV]

/-- Witness for C1_amended at the concrete counterexample environment. -/
theorem C1_amended_witness :
    ∃ inc v s xs ys, run cfgD envC1 5 none none = Except.ok (some inc, v, s) ∧
      s.X = some xs ∧ s.Y = some ys ∧ xs.length = 5 ∧ ys.length = 5 ∧
      v = minList (ys.take 4) ∧
      inc = (xs.take 4).getD (argminList (ys.take 4)) [] :=
  C1_amended cfgD envC1 gC1 rfl rfl

/-- Claim C2, amended: the four series are aligned at the end of the full
seeding routine and at the end of every completed main loop iteration;
during individual seed iterations the timing arrays are pre-sized to
n_init_points (lines 58 and 59) while X and Y have only grown to the
current seed index plus one, so the alignment fails there (see
C2_counterexample). -/
theorem C2_amended (cfg : Config) (env : Env σ) (f : Point → Value)
    (hf : env.evaluate = fun p => some (f p)) (hr : 0 < cfg.nRestarts) :
    (∀ s : RunState σ, ∃ s', initializeRun cfg env 3 s = Except.ok s' ∧
      (s'.X.getD []).length = 3 ∧ (s'.Y.getD []).length = 3 ∧
      s'.timeFuncEval.length = 3 ∧ s'.timeOptOverhead.length = 3) ∧
    (∀ (it : Nat) (s : RunState σ) (xs : List Point) (ys : List Value),
      s.X = some xs → s.Y = some ys → xs.length = s.timeFuncEval.length →
      xs.length = s.timeOptOverhead.length → ys.length = xs.length →
      ∃ s', mainIter cfg env it s = Except.ok s' ∧
        (s'.X.getD []).length = xs.length + 1 ∧
        (s'.Y.getD []).length = xs.length + 1 ∧
        s'.timeFuncEval.length = xs.length + 1 ∧
        s'.timeOptOverhead.length = xs.length + 1) := by
  constructor
  · intro s
    obtain ⟨s', h, hX, hY, htf, hto, _, _, _, _, _, _, _, _⟩ :=
      initializeRun_ok cfg env f hf s
    refine ⟨s', h, ?_, ?_, ?_, ?_⟩
    · rw [hX]; rfl
    · rw [hY]; rfl
    · rw [htf]; rfl
    · rw [hto]; rfl
  · intro it s xs ys hX hY h1 h2 h3
    obtain ⟨s', h, hX', hY', htf, hto, _, _, _, _, _⟩ :=
      mainIter_ok cfg env f hf hr it s xs ys hX hY
    refine ⟨s', h, ?_, ?_, ?_, ?_⟩
    · rw [hX']
      simp only [Option.getD_some, List.length_append, List.length_cons,
        List.length_nil]
    · rw [hY']
      simp only [Option.getD_some, List.length_append, List.length_cons,
        List.length_nil]
      omega
    · rw [htf]
      simp only [List.length_append, List.length_cons, List.length_nil]
      omega
    · rw [hto]
      simp only [List.length_append, List.length_cons, List.length_nil]
      omega

/-- A concrete state with a one point history, used to witness the per
iteration theorems. -/
def stateC2w : RunState Nat :=
  { startState envD with X := some [[1]],
                         Y := some [4],
                         timeFuncEval := [0],
                         timeOptOverhead := [0] }

/-- Witness for C2_amended at the concrete environment. -/
theorem C2_amended_witness :
    (∃ s', initializeRun cfgD envD 3 (startState envD) = Except.ok s' ∧
      (s'.X.getD []).length = 3 ∧ (s'.Y.getD []).length = 3 ∧
      s'.timeFuncEval.length = 3 ∧ s'.timeOptOverhead.length = 3) ∧
    (∃ s', mainIter cfgD envD 3 stateC2w = Except.ok s' ∧
      (s'.X.getD []).length = 2 ∧ (s'.Y.getD []).length = 2 ∧
      s'.timeFuncEval.length = 2 ∧ s'.timeOptOverhead.length = 2) :=
  ⟨(C2_amended cfgD envD gD rfl (by decide)).1 (startState envD),
   (C2_amended cfgD envD gD rfl (by decide)).2 3 stateC2w [[1]] [4]
     rfl rfl rfl rfl rfl⟩

/-- Claim C3, amended: the value appended to the overhead series in a
main loop iteration starting at clock index c is the span from the
line 115 read (index c, taken before candidate selection) to the line 150
read (index c + 7, taken after the recommendation step): reads c + 1 to
c + 4 time the training and the maximization, read c + 5 is the line 123
start_time_inc at which the recommendation step begins, read c + 6 is the
line 148 log taken after it.  The appended entry therefore includes the
incumbent recomputation interval (see C3_counterexample); only the
separately logged incumbent selection latency, spanning reads c + 5 and
c + 6, is logging-only and never appended. -/
theorem C3_amended (cfg : Config) (env : Env σ) (f : Point → Value)
    (hf : env.evaluate = fun p => some (f p)) (hr : 0 < cfg.nRestarts)
    (it : Nat) (s : RunState σ) (xs : List Point) (ys : List Value)
    (hX : s.X = some xs) (hY : s.Y = some ys) :
    ∃ s', mainIter cfg env it s = Except.ok s' ∧
      s'.timeOptOverhead = s.timeOptOverhead ++
        [env.times (s.clock + 7) - env.times s.clock] ∧
      s'.timeFuncEval = s.timeFuncEval ++
        [env.times (s.clock + 9) - env.times (s.clock + 8)] ∧
      s'.clock = s.clock + 10 := by
  obtain ⟨s', h, _, _, htf, hto, hck, _, _, _, _⟩ :=
    mainIter_ok cfg env f hf hr it s xs ys hX hY
  exact ⟨s', h, hto, htf, hck⟩

/-- Witness for C3_amended at the concrete environment. -/
theorem C3_amended_witness :
    ∃ s', mainIter cfgD envD 3 stateC2w = Except.ok s' ∧
      s'.timeOptOverhead = [0] ++ [envD.times (0 + 7) - envD.times 0] ∧
      s'.timeFuncEval = [0] ++ [envD.times (0 + 9) - envD.times (0 + 8)] ∧
      s'.clock = 0 + 10 :=
  C3_amended cfgD envD gD rfl (by decide) 3 stateC2w [[1]] [4] rfl rfl

/-- Claim C4, amended: the number of main loop iterations is always
num_iterations - 3 with 3 the hardcoded n_init_points of line 111, never
num_iterations minus the seed length.  An unseeded run (which always
draws 3 seed points) therefore ends with history length
3 + (num_iterations - 3), which equals num_iterations when
num_iterations is at least 3; a run seeded with m observations and
num_iterations at least 4 ends with history length
m + (num_iterations - 3), which differs from num_iterations whenever m
is not 3 (see C4_counterexample). -/
theorem C4_amended (cfg : Config) (env : Env σ) (f : Point → Value)
    (hf : env.evaluate = fun p => some (f p)) (hr : 0 < cfg.nRestarts) :
    (∀ n : Nat, ∃ inc v s, run cfg env n none none = Except.ok (inc, v, s) ∧
      (s.X.getD []).length = 3 + (n - 3)) ∧
    (∀ (n : Nat) (xs : List Point) (ys : List Value), 4 ≤ n →
      ∃ inc v s, run cfg env n (some xs) (some ys) = Except.ok (inc, v, s) ∧
        (s.X.getD []).length = xs.length + (n - 3)) := by
  constructor
  · intro n
    obtain ⟨s1, h1, hX1, hY1, _, _, _, _, hsome1, _, _, _, _, _⟩ :=
      initializeRun_ok cfg env f hf (runStart env)
    obtain ⟨s', xs', ys', hfold, hX', hY', hlx, _, _, _, hz, hi⟩ :=
      mainLoop_ok cfg env f hf hr (n - 3) 3 s1 _ _ hX1 hY1
    have hsome : s'.incumbentValue.isSome = true := by
      rcases Nat.eq_zero_or_pos (n - 3) with h0 | hpos
      · rw [hz h0]; exact hsome1
      · exact hi hpos
    obtain ⟨v, hv⟩ := Option.isSome_iff_exists.mp hsome
    refine ⟨s'.incumbent, v, s',
      run_eq cfg env n none none s1 h1 s' hfold v hv, ?_⟩
    rw [hX']
    simp only [Option.getD_some]
    rw [hlx]
    simp
  · intro n xs ys hn
    obtain ⟨s0, hsetup, hX0, hY0⟩ :
        ∃ s0, runSetup cfg env (some xs) (some ys) = Except.ok s0 ∧
          s0.X = some xs ∧ s0.Y = some ys := ⟨_, rfl, rfl, rfl⟩
    obtain ⟨s', xs', ys', hfold, hX', hY', hlx, _, _, _, hz, hi⟩ :=
      mainLoop_ok cfg env f hf hr (n - 3) 3 s0 _ _ hX0 hY0
    have hsome := hi (by omega)
    obtain ⟨v, hv⟩ := Option.isSome_iff_exists.mp hsome
    refine ⟨s'.incumbent, v, s',
      run_eq cfg env n (some xs) (some ys) s0 hsetup s' hfold v hv, ?_⟩
    rw [hX']
    simp only [Option.getD_some]
    exact hlx

/-- Witness for C4_amended at the concrete environment: the unseeded run
with 7 iterations ends with 7 observations, the run seeded with one
observation ends with 1 + 4 = 5 of them. -/
theorem C4_amended_witness :
    (∃ inc v s, run cfgD envD 7 none none = Except.ok (inc, v, s) ∧
      (s.X.getD []).length = 3 + (7 - 3)) ∧
    (∃ inc v s, run cfgD envD 7 (some [[0]]) (some [5]) = Except.ok (inc, v, s) ∧
      (s.X.getD []).length = [[(0 : Int)]].length + (7 - 3)) :=
  ⟨(C4_amended cfgD envD gD rfl (by decide)).1 7,
   (C4_amended cfgD envD gD rfl (by decide)).2 7 [[0]] [5] (by omega)⟩

/-- Claim C6: with the posterior mean and std optimizer configured
(policy B), a main loop iteration records exactly one call to that
collaborator; its start point set is the nRestarts draws from the uniform
stream followed by the best observed history entry (nRestarts + 1 points
in total), gradients are enabled, and the returned pair is adopted as the
incumbent. -/
theorem C6_policyB_single_call (cfg : Config) (env : Env σ)
    (f : Point → Value) (hf : env.evaluate = fun p => some (f p))
    (hstrat : cfg.strategy = StrategyTag.posterior) (it : Nat)
    (s : RunState σ) (xs : List Point) (ys : List Value)
    (hX : s.X = some xs) (hY : s.Y = some ys) :
    ∃ s', mainIter cfg env it s = Except.ok s' ∧
      s'.posteriorCalls = s.posteriorCalls ++
        [(randPoints env s.randIdx cfg.nRestarts ++
          [xs.getD (argminList ys) []], true)] ∧
      (randPoints env s.randIdx cfg.nRestarts ++
        [xs.getD (argminList ys) []]).length = cfg.nRestarts + 1 ∧
      s'.genericCalls = s.genericCalls ∧
      s'.randIdx = s.randIdx + cfg.nRestarts ∧
      s'.incumbent = some (env.posteriorOpt
        (env.train s.model xs ys (decide (it % cfg.trainIntervall = 0)))
        (randPoints env s.randIdx cfg.nRestarts ++
          [xs.getD (argminList ys) []]) true).1 ∧
      s'.incumbentValue = some (env.posteriorOpt
        (env.train s.model xs ys (decide (it % cfg.trainIntervall = 0)))
        (randPoints env s.randIdx cfg.nRestarts ++
          [xs.getD (argminList ys) []]) true).2 := by
  obtain ⟨sX, sY, tfe, too, inc, incv, m, mu, ck, ri, sv, pc, gc⟩ := s
  obtain ⟨m0, tms, rnd, ev, tr, mx, ac, hy, po, gr⟩ := env
  dsimp only at hX hY hf ⊢
  subst hX; subst hY; subst hf
  obtain ⟨nd, ti, ns, nr, sd, st⟩ := cfg
  dsimp only at hstrat ⊢
  subst hstrat
  refine ⟨_, rfl, rfl, ?_, rfl, rfl, rfl, rfl⟩
  simp [randPoints]

/-- Witness for C6 at the concrete environment: one recorded call with
the two draws plus the best observed point and the gradient flag set. -/
theorem C6_policyB_single_call_witness :
    ∃ s', mainIter { cfgD with strategy := StrategyTag.posterior } envD 3
        stateC2w = Except.ok s' ∧
      s'.posteriorCalls = [] ++
        [(randPoints envD 0 2 ++ [([[1]] : List Point).getD (argminList [4]) []],
          true)] ∧
      (randPoints envD 0 2 ++
        [([[1]] : List Point).getD (argminList [4]) []]).length = 2 + 1 ∧
      s'.genericCalls = [] ∧
      s'.randIdx = 0 + 2 ∧
      s'.incumbent = some (envD.posteriorOpt
        (envD.train stateC2w.model [[1]] [4] (decide (3 % 1 = 0)))
        (randPoints envD 0 2 ++
          [([[1]] : List Point).getD (argminList [4]) []]) true).1 ∧
      s'.incumbentValue = some (envD.posteriorOpt
        (envD.train stateC2w.model [[1]] [4] (decide (3 % 1 = 0)))
        (randPoints envD 0 2 ++
          [([[1]] : List Point).getD (argminList [4]) []]) true).2 :=
  C6_policyB_single_call { cfgD with strategy := StrategyTag.posterior }
    envD gD rfl rfl 3 stateC2w [[1]] [4] rfl rfl

/-- Claim C7: with a generic strategy configured (policy C), a main loop
iteration draws exactly nRestarts random start points (no best observed
point added), records exactly one independent strategy call per start
point, and adopts as incumbent the result pair whose returned value is
the minimum over those calls (first minimizing call on ties). -/
theorem C7_policyC_independent_calls (cfg : Config) (env : Env σ)
    (f : Point → Value) (hf : env.evaluate = fun p => some (f p))
    (hstrat : cfg.strategy = StrategyTag.generic) (hr : 0 < cfg.nRestarts)
    (it : Nat) (s : RunState σ) (xs : List Point) (ys : List Value)
    (hX : s.X = some xs) (hY : s.Y = some ys) :
    ∃ s', mainIter cfg env it s = Except.ok s' ∧
      s'.genericCalls = s.genericCalls ++
        randPoints env s.randIdx cfg.nRestarts ∧
      (randPoints env s.randIdx cfg.nRestarts).length = cfg.nRestarts ∧
      s'.posteriorCalls = s.posteriorCalls ∧
      s'.randIdx = s.randIdx + cfg.nRestarts ∧
      s'.incumbentValue = some (minList
        (((randPoints env s.randIdx cfg.nRestarts).map
          (env.genericRec (env.train s.model xs ys
            (decide (it % cfg.trainIntervall = 0))))).map Prod.snd)) ∧
      s'.incumbent = some ((((randPoints env s.randIdx cfg.nRestarts).map
          (env.genericRec (env.train s.model xs ys
            (decide (it % cfg.trainIntervall = 0))))).map Prod.fst).getD
        (argminList (((randPoints env s.randIdx cfg.nRestarts).map
          (env.genericRec (env.train s.model xs ys
            (decide (it % cfg.trainIntervall = 0))))).map Prod.snd)) []) := by
  obtain ⟨sX, sY, tfe, too, inc, incv, m, mu, ck, ri, sv, pc, gc⟩ := s
  obtain ⟨m0, tms, rnd, ev, tr, mx, ac, hy, po, gr⟩ := env
  dsimp only at hX hY hf ⊢
  subst hX; subst hY; subst hf
  obtain ⟨nd, ti, ns, nr, sd, st⟩ := cfg
  dsimp only at hstrat hr ⊢
  subst hstrat
  obtain ⟨k, rfl⟩ : ∃ k, nr = k + 1 := ⟨nr - 1, by omega⟩
  refine ⟨_, rfl, rfl, ?_, rfl, rfl,
    congrArg some (getD_argminList _ ?_), rfl⟩
  · simp [randPoints]
  · simp [randPoints]

/-- Witness for C7 at the concrete environment with two restarts. -/
theorem C7_policyC_independent_calls_witness :
    ∃ s', mainIter { cfgD with strategy := StrategyTag.generic } envD 3
        stateC2w = Except.ok s' ∧
      s'.genericCalls = [] ++ randPoints envD 0 2 ∧
      (randPoints envD 0 2).length = 2 ∧
      s'.posteriorCalls = [] ∧
      s'.randIdx = 0 + 2 ∧
      s'.incumbentValue = some (minList (((randPoints envD 0 2).map
        (envD.genericRec (envD.train stateC2w.model [[1]] [4]
          (decide (3 % 1 = 0))))).map Prod.snd)) ∧
      s'.incumbent = some ((((randPoints envD 0 2).map
        (envD.genericRec (envD.train stateC2w.model [[1]] [4]
          (decide (3 % 1 = 0))))).map Prod.fst).getD
        (argminList (((randPoints envD 0 2).map
          (envD.genericRec (envD.train stateC2w.model [[1]] [4]
            (decide (3 % 1 = 0))))).map Prod.snd)) []) :=
  C7_policyC_independent_calls { cfgD with strategy := StrategyTag.generic }
    envD gD rfl rfl (by decide) 3 stateC2w [[1]] [4] rfl rfl

/-- Claim C8: when the task evaluation of the candidate fails in a main
loop iteration, the failure propagates and X and Y still hold exactly
their pre-iteration entries: the unevaluated candidate is never appended,
since the appends of lines 166 and 167 sit after the evaluation of
line 157. -/
theorem C8_eval_failure_preserves_history (cfg : Config) (env : Env σ)
    (hr : 0 < cfg.nRestarts) (it : Nat) (s : RunState σ)
    (xs : List Point) (ys : List Value) (hX : s.X = some xs)
    (hY : s.Y = some ys)
    (hfail : env.evaluate (candidatePoint cfg env it s xs ys) = none) :
    ∃ s', mainIter cfg env it s = Except.error (Err.evaluationFailed, s') ∧
      s'.X = some xs ∧ s'.Y = some ys := by
  obtain ⟨sX, sY, tfe, too, inc, incv, m, mu, ck, ri, sv, pc, gc⟩ := s
  obtain ⟨m0, tms, rnd, ev, tr, mx, ac, hy, po, gr⟩ := env
  dsimp only [candidatePoint] at hfail
  dsimp only at hX hY ⊢
  subst hX; subst hY
  obtain ⟨nd, ti, ns, nr, sd, st⟩ := cfg
  dsimp only at hr hfail ⊢
  cases st with
  | best =>
      simp only [mainIter, chooseNext, recommendStep, evalBatch, hfail]
      exact ⟨_, rfl, rfl, rfl⟩
  | posterior =>
      simp only [mainIter, chooseNext, recommendStep, evalBatch, hfail]
      exact ⟨_, rfl, rfl, rfl⟩
  | generic =>
      obtain ⟨k, rfl⟩ : ∃ k, nr = k + 1 := ⟨nr - 1, by omega⟩
      simp only [mainIter, chooseNext, recommendStep, evalBatch, hfail]
      exact ⟨_, rfl, rfl, rfl⟩

/-- An environment whose task evaluation always fails. -/
def envFail : Env Nat := { envD with evaluate := fun _ => none }

/-- Witness for C8: the failing iteration leaves the one point history
untouched. -/
theorem C8_eval_failure_preserves_history_witness :
    ∃ s', mainIter cfgD envFail 3 stateC2w =
        Except.error (Err.evaluationFailed, s') ∧
      s'.X = some [[1]] ∧ s'.Y = some [4] :=
  C8_eval_failure_preserves_history cfgD envFail (by decide) 3 stateC2w
    [[1]] [4] rfl rfl rfl

/-- Claim C9, amended: the random seeding path executes exactly when both
X and Y are absent.  If only X is supplied it is adopted, Y remains None,
no draws are consumed and the timing series are zero arrays sized from X,
with no error.  If only Y is supplied, Y is adopted and X remains None
and no draws are consumed, but sizing the timing series from the absent X
(line 108) raises an attribute error that propagates before any
iteration, leaving the timing series unassigned (see C9_counterexample):
the no-error and sized-from-X parts of the claim hold only in the X-only
case. -/
theorem C9_amended (cfg : Config) (env : Env σ) (xs : List Point)
    (ys : List Value) :
    runSetup cfg env none none = initializeRun cfg env 3 (runStart env) ∧
    (∃ s, runSetup cfg env (some xs) none = Except.ok s ∧ s.X = some xs ∧
      s.Y = none ∧ s.randIdx = 0 ∧
      s.timeFuncEval = List.replicate xs.length 0 ∧
      s.timeOptOverhead = List.replicate xs.length 0) ∧
    (∃ s, runSetup cfg env none (some ys) =
        Except.error (Err.attributeError, s) ∧
      s.X = none ∧ s.Y = some ys ∧ s.randIdx = 0 ∧
      s.timeFuncEval = [] ∧ s.timeOptOverhead = []) :=
  ⟨rfl, ⟨_, rfl, rfl, rfl, rfl, rfl, rfl⟩, ⟨_, rfl, rfl, rfl, rfl, rfl, rfl⟩⟩

/-- Claim C10: during unseeded seeding with a save directory configured,
a checkpoint is written after every one of the three seed evaluations
whatever the num_save cadence is, because the line 87 guard tests the
constant 0 modulo num_save, which holds for every positive num_save; each
record carries no hyperparameters (None) and acquisition value 0 rather
than the acquisition value at the evaluated point. -/
theorem C10_seed_checkpoints (cfg : Config) (env : Env σ)
    (f : Point → Value) (hf : env.evaluate = fun p => some (f p))
    (hsave : cfg.saveDir = true) (_hns : 0 < cfg.numSave) (s : RunState σ) :
    ∃ s', initializeRun cfg env 3 s = Except.ok s' ∧
      s'.saves = s.saves ++ [⟨0, none, 0⟩, ⟨1, none, 0⟩, ⟨2, none, 0⟩] := by
  obtain ⟨s', h, _, _, _, _, _, _, _, _, _, _, hsv, _⟩ :=
    initializeRun_ok cfg env f hf s
  refine ⟨s', h, ?_⟩
  rw [hsv]
  simp [seedSaveIf, hsave, Nat.zero_mod]

/-- A configuration with checkpointing enabled and a cadence of five,
which a seed-index-based guard would skip for indices 1 and 2. -/
def cfgSave : Config := { cfgD with saveDir := true, numSave := 5 }

/-- Witness for C10: even with cadence 5, all three seed checkpoints are
written, with no hyperparameters and acquisition value 0. -/
theorem C10_seed_checkpoints_witness :
    ∃ s', initializeRun cfgSave envD 3 (startState envD) = Except.ok s' ∧
      s'.saves = [] ++ [⟨0, none, 0⟩, ⟨1, none, 0⟩, ⟨2, none, 0⟩] :=
  C10_seed_checkpoints cfgSave envD gD rfl rfl (by decide) (startState envD)

/-- The state components that evolve identically under every
recommendation strategy: everything except the incumbent pair, the random
draw index and the collaborator call traces. -/
def sameCore (s t : RunState σ) : Prop :=
  s.X = t.X ∧ s.Y = t.Y ∧ s.timeFuncEval = t.timeFuncEval ∧
  s.timeOptOverhead = t.timeOptOverhead ∧ s.model = t.model ∧
  s.modelUntrained = t.modelUntrained ∧ s.clock = t.clock ∧ s.saves = t.saves

/-- One main loop iteration run under two configurations differing only
in the recommendation strategy, from two states agreeing on the core
components, succeeds on both sides, preserves the core agreement, and
appends the same maximizer output on both sides. -/
theorem mainIter_crossPolicy (cfg : Config) (τ1 τ2 : StrategyTag)
    (env : Env σ) (f : Point → Value)
    (hf : env.evaluate = fun p => some (f p)) (hr : 0 < cfg.nRestarts)
    (it : Nat) (s t : RunState σ) (xs : List Point) (ys : List Value)
    (hX : s.X = some xs) (hY : s.Y = some ys) (hc : sameCore s t) :
    ∃ s' t', mainIter { cfg with strategy := τ1 } env it s = Except.ok s' ∧
      mainIter { cfg with strategy := τ2 } env it t = Except.ok t' ∧
      sameCore s' t' ∧
      s'.X = some (xs ++ [candidatePoint cfg env it s xs ys]) ∧
      s'.Y = some (ys ++ [f (candidatePoint cfg env it s xs ys)]) ∧
      s'.incumbentValue.isSome = true ∧
      t'.incumbentValue.isSome = true := by
  obtain ⟨hcX, hcY, hctf, hcto, hcm, hcmu, hcck, hcsv⟩ := hc
  obtain ⟨s', h1, hX1, hY1, htf1, hto1, hck1, hm1, hmu1, hiv1, hsv1⟩ :=
    mainIter_ok { cfg with strategy := τ1 } env f hf hr it s xs ys hX hY
  obtain ⟨t', h2, hX2, hY2, htf2, hto2, hck2, hm2, hmu2, hiv2, hsv2⟩ :=
    mainIter_ok { cfg with strategy := τ2 } env f hf hr it t xs ys
      (hcX ▸ hX) (hcY ▸ hY)
  refine ⟨s', t', h1, h2, ⟨?_, ?_, ?_, ?_, ?_, ?_, ?_, ?_⟩, hX1, hY1,
    hiv1, hiv2⟩ <;>
    simp only [hX1, hX2, hY1, hY2, htf1, htf2, hto1, hto2, hck1, hck2,
      hm1, hm2, hmu1, hmu2, hsv1, hsv2, candidatePoint, hcm, hcck, hctf,
      hcto, hcsv]

/-- The main loop run under two configurations differing only in the
recommendation strategy, from two states agreeing on the core components,
keeps the cores in agreement for any number of iterations. -/
theorem mainLoop_crossPolicy (cfg : Config) (τ1 τ2 : StrategyTag)
    (env : Env σ) (f : Point → Value)
    (hf : env.evaluate = fun p => some (f p)) (hr : 0 < cfg.nRestarts) :
    ∀ (k it : Nat) (s t : RunState σ) (xs : List Point) (ys : List Value),
      s.X = some xs → s.Y = some ys → sameCore s t →
      ∃ s' t', mainLoop { cfg with strategy := τ1 } env it k s =
          Except.ok s' ∧
        mainLoop { cfg with strategy := τ2 } env it k t = Except.ok t' ∧
        sameCore s' t' ∧
        (0 < k → s'.incumbentValue.isSome = true ∧
          t'.incumbentValue.isSome = true) ∧
        (k = 0 → s' = s ∧ t' = t)
  | 0, it, s, t, xs, ys, hX, hY, hc =>
      ⟨s, t, rfl, rfl, hc, fun h => absurd h (by omega),
        fun _ => ⟨rfl, rfl⟩⟩
  | k + 1, it, s, t, xs, ys, hX, hY, hc => by
      obtain ⟨s1, t1, h1, h2, hc1, hX1, hY1, hiv1, hiv2⟩ :=
        mainIter_crossPolicy cfg τ1 τ2 env f hf hr it s t xs ys hX hY hc
      obtain ⟨s', t', hl1, hl2, hc', hpos, hzero⟩ :=
        mainLoop_crossPolicy cfg τ1 τ2 env f hf hr k (it + 1) s1 t1 _ _
          hX1 hY1 hc1
      refine ⟨s', t', ?_, ?_, hc', ?_, ?_⟩
      · exact (mainLoop_succ _ env it k s s1 h1).trans hl1
      · exact (mainLoop_succ _ env it k t t1 h2).trans hl2
      · intro _
        rcases Nat.eq_zero_or_pos k with h0 | hp
        · obtain ⟨hs, ht⟩ := hzero h0
          rw [hs, ht]
          exact ⟨hiv1, hiv2⟩
        · exact hpos hp
      · exact fun h => absurd h (Nat.succ_ne_zero k)

/-- The observed X history of a finished run, when the run succeeds. -/
def runHistory (cfg : Config) (env : Env σ) (n : Nat)
    (X0 : Option (List Point)) (Y0 : Option (List Value)) :
    Option (List Point) :=
  match run cfg env n X0 Y0 with
  | Except.ok (_, _, s) => some (s.X.getD [])
  | Except.error _ => none

/-- Claim C5: swapping the recommendation strategy of an unseeded run
while keeping the environment (collaborators, random stream, timestamps)
fixed leaves the whole evaluated X history unchanged; and in every main
loop iteration the point whose observation is appended to the history is
exactly the maximizer output of that iteration, never the incumbent. -/
theorem C5_candidate_independence (cfg : Config) (env : Env σ)
    (f : Point → Value) (hf : env.evaluate = fun p => some (f p))
    (hr : 0 < cfg.nRestarts) (n : Nat) (τ1 τ2 : StrategyTag) :
    runHistory { cfg with strategy := τ1 } env n none none =
      runHistory { cfg with strategy := τ2 } env n none none ∧
    (∀ (it : Nat) (s : RunState σ) (xs : List Point) (ys : List Value),
      s.X = some xs → s.Y = some ys →
      ∃ s', mainIter cfg env it s = Except.ok s' ∧
        s'.X = some (xs ++ [candidatePoint cfg env it s xs ys]) ∧
        s'.Y = some (ys ++ [f (candidatePoint cfg env it s xs ys)])) := by
  constructor
  · obtain ⟨s1, h1, hX1, hY1, htf1, hto1, hck1, hri1, hiv1, hm1, hpc1,
      hgc1, hsv1, hmu1⟩ :=
      initializeRun_ok { cfg with strategy := τ1 } env f hf (runStart env)
    obtain ⟨t1, h2, hX2, hY2, htf2, hto2, hck2, hri2, hiv2, hm2, hpc2,
      hgc2, hsv2, hmu2⟩ :=
      initializeRun_ok { cfg with strategy := τ2 } env f hf (runStart env)
    have hc1 : sameCore s1 t1 := by
      refine ⟨?_, ?_, ?_, ?_, ?_, ?_, ?_, ?_⟩ <;>
        simp only [hX1, hX2, hY1, hY2, htf1, htf2, hto1, hto2, hck1, hck2,
          hm1, hm2, hmu1, hmu2, hsv1, hsv2, seedSaveIf]
    obtain ⟨s', t', hl1, hl2, hc', hpos, hzero⟩ :=
      mainLoop_crossPolicy cfg τ1 τ2 env f hf hr (n - 3) 3 s1 t1 _ _
        hX1 hY1 hc1
    have hiva : s'.incumbentValue.isSome = true := by
      rcases Nat.eq_zero_or_pos (n - 3) with h0 | hp
      · rw [(hzero h0).1]; exact hiv1
      · exact (hpos hp).1
    have hivb : t'.incumbentValue.isSome = true := by
      rcases Nat.eq_zero_or_pos (n - 3) with h0 | hp
      · rw [(hzero h0).2]; exact hiv2
      · exact (hpos hp).2
    obtain ⟨v1, hv1⟩ := Option.isSome_iff_exists.mp hiva
    obtain ⟨v2, hv2⟩ := Option.isSome_iff_exists.mp hivb
    have hrun1 := run_eq { cfg with strategy := τ1 } env n none none s1 h1
      s' hl1 v1 hv1
    have hrun2 := run_eq { cfg with strategy := τ2 } env n none none t1 h2
      t' hl2 v2 hv2
    unfold runHistory
    simp only [hrun1, hrun2]
    rw [hc'.1]
  · intro it s xs ys hX hY
    obtain ⟨s', h, hX', hY', _, _, _, _, _, _, _⟩ :=
      mainIter_ok cfg env f hf hr it s xs ys hX hY
    exact ⟨s', h, hX', hY'⟩

/-- Witness for C5 at the concrete environment: the best observed policy
and the posterior policy give identical 5 point histories, and the
concrete iteration appends exactly the maximizer output. -/
theorem C5_candidate_independence_witness :
    (runHistory { cfgD with strategy := StrategyTag.best } envD 5 none none =
      runHistory { cfgD with strategy := StrategyTag.posterior } envD 5
        none none) ∧
    (∃ s', mainIter cfgD envD 3 stateC2w = Except.ok s' ∧
      s'.X = some ([[1]] ++ [candidatePoint cfgD envD 3 stateC2w [[1]] [4]]) ∧
      s'.Y = some ([4] ++
        [gD (candidatePoint cfgD envD 3 stateC2w [[1]] [4])])) :=
  ⟨(C5_candidate_independence cfgD envD gD rfl (by decide) 5
      StrategyTag.best StrategyTag.posterior).1,
   (C5_candidate_independence cfgD envD gD rfl (by decide) 5
      StrategyTag.best StrategyTag.posterior).2 3 stateC2w [[1]] [4]
      rfl rfl⟩

end RoBO
